import Mathlib

/-!
Verification of the migres migration CLI (src/cli.js) against its design
specification.  The relevant parts of commitOrRollback and its helpers are
shallowly embedded below: JavaScript array/string primitives used by the code
(Array.prototype.slice, Array.prototype.findIndex, the coercing relational
comparison of an array against a number) are modelled faithfully from the
ECMAScript semantics, and the program logic is translated line by line from
the source.  Filesystem and database collaborators are passed in explicitly:
the directory listing, per-directory file listing and file contents as an
Env record, and database transaction behaviour as a small Postgres-style
connection state machine.
-/

namespace Migres

/-- Direction of the operation: args.cmd is "commit" or "rollback" when
commitOrRollback runs. -/
inductive Cmd where
  | commit : Cmd
  | rollback : Cmd
deriving DecidableEq

/-! ## JavaScript primitive semantics used by cli.js -/

/-- Model of subDir.startsWith "." from cli.js: a string starts with the
one-character prefix "." exactly when its first character is a dot. -/
def startsWithDot (s : String) : Bool :=
  match s.data with
  | [] => false
  | c :: _ => c == '.'

/-- Resolution of a relative index for Array.prototype.slice
(ECMAScript 23.1.3.28): a negative argument counts from the end and is
clamped below by 0, a non-negative argument is clamped above by the length. -/
def jsSliceIdx (len : Nat) (i : Int) : Nat :=
  (if i < 0 then max ((len : Int) + i) 0 else min i (len : Int)).toNat

/-- Model of arr.slice(s, e): the elements at resolved indices s .. e-1. -/
def jsSlice (l : List String) (s e : Int) : List String :=
  (l.take (jsSliceIdx l.length e)).drop (jsSliceIdx l.length s)

/-- Model of one-argument arr.slice(s): the end index defaults to the length. -/
def jsSlice1 (l : List String) (s : Int) : List String :=
  jsSlice l s (l.length : Int)

/-- Model of Array.prototype.join with separator "," (used implicitly by
ToPrimitive on an array: valueOf is not primitive, so toString, which is
join(","), is used). -/
def jsJoin (l : List String) : String :=
  match l with
  | [] => ""
  | x :: xs => xs.foldl (fun acc s => acc ++ "," ++ s) x

/-- Numeric value of a list of decimal digits. -/
def digitsToInt (ds : List Char) : Int :=
  ds.foldl (fun n c => 10 * n + ((c.toNat : Int) - ('0'.toNat : Int))) 0

/-- Whitespace trimming on both ends, as ECMAScript ToNumber performs on a
string before parsing it as a numeric literal.  (Char.isWhitespace covers a
subset of StrWhiteSpace; strings whose surrounding whitespace is exotic fall
outside the modelled fragment and are mapped to NaN below, which never
makes the comparison against 1 succeed, so the model errs on the side of
claiming less.) -/
def jsTrim (cs : List Char) : List Char :=
  ((cs.dropWhile Char.isWhitespace).reverse.dropWhile Char.isWhitespace).reverse

/-- Model of ECMAScript ToNumber on a string, restricted to the fragment
needed here: the empty/whitespace-only string is 0, an optionally signed
non-empty run of decimal digits has its decimal value, and every other
string is treated as NaN (result Option.none).  Fractional, exponent, hex
and Infinity forms are deliberately outside the fragment and map to NaN;
for an integer numeral the comparison with 1 under IEEE-754 double
semantics agrees with exact integer comparison (rounding is monotone and 1
is representable), so on the some-branch the model is exact. -/
def jsStringToNumber (s : String) : Option Int :=
  match jsTrim s.data with
  | [] => some 0
  | '-' :: ds =>
    if !ds.isEmpty && ds.all Char.isDigit then some (-(digitsToInt ds)) else none
  | '+' :: ds =>
    if !ds.isEmpty && ds.all Char.isDigit then some (digitsToInt ds) else none
  | ds =>
    if ds.all Char.isDigit then some (digitsToInt ds) else none

/-- Model of the JavaScript expression subset < 1 for an array of strings
(cli.js line 131): ToPrimitive turns the array into its join(","), the
other operand is the number 1, so the string is converted with ToNumber and
compared numerically; a NaN conversion makes the comparison false. -/
def jsArrayLtOne (l : List String) : Bool :=
  match jsStringToNumber (jsJoin l) with
  | some v => decide (v < 1)
  | none => false

/-- First index of an element in a list, as Array.prototype.findIndex with
the predicate (d => d === x) computes it: Option.none when absent. -/
def firstIdxOf (a : String) : List String → Option Nat
  | [] => none
  | d :: ds => if d = a then some 0 else (firstIdxOf a ds).map (· + 1)

/-- Model of dirNames.findIndex(d => d === subset[migrateTo]) from cli.js:
-1 when no element matches; when subset[migrateTo] is out of range the JS
value is undefined and the strict equality is false for every string. -/
def jsFindIndexEq (l : List String) (x : Option String) : Int :=
  match x with
  | some a =>
    match firstIdxOf a l with
    | some i => (i : Int)
    | none => -1
  | none => -1

/-! ## The commitOrRollback pipeline (cli.js lines 109-180) -/

/-- Catalog construction (cli.js lines 111-117): the readdir listing of the
migrations directory filtered to exclude hidden entries, order preserved.
Node's fs.readdirSync (libuv uv_fs_scandir) returns entries sorted
ascending by alphasort; theorems that depend on this collaborator contract
take the sortedness of the listing as a hypothesis. -/
def dirNamesOf (listing : List String) : List String :=
  listing.filter (fun subDir => !startsWithDot subDir)

/-- Subset resolution (cli.js lines 126-128):
commit:   dirNames.slice(cursor + 1)
rollback: dirNames.slice(0).reverse().slice(dirNames.length - (cursor + 1)). -/
def subsetFor (cmd : Cmd) (dirNames : List String) (cursor : Int) : List String :=
  match cmd with
  | .commit => jsSlice1 dirNames (cursor + 1)
  | .rollback => jsSlice1 (jsSlice1 dirNames 0).reverse ((dirNames.length : Int) - (cursor + 1))

/-- New cursor computation (cli.js lines 154-156):
commit:   dirNames.findIndex(d => d === subset[migrateTo])
rollback: dirNames.findIndex(d => d === subset[migrateTo]) - 1. -/
def newCursorFor (cmd : Cmd) (dirNames subset : List String) (migrateTo : Nat) : Int :=
  match cmd with
  | .commit => jsFindIndexEq dirNames subset[migrateTo]?
  | .rollback => jsFindIndexEq dirNames subset[migrateTo]? - 1

/-- Script file selection inside a migration directory (cli.js line 168):
files[0] for a commit, files[1] for a rollback, where files is the readdir
listing of the directory; an out-of-range index is undefined in JS and
makes the subsequent path resolution throw, modelled by Option.none. -/
def scriptFor (cmd : Cmd) (files : List String) : Option String :=
  match cmd with
  | .commit => files[0]?
  | .rollback => files[1]?

/-- Filesystem collaborator as seen by commitOrRollback: the listing of the
migrations root, the listing of each migration directory, and the text
content of each file (keyed by directory then file name). -/
structure Env where
  listing : List String
  filesOf : String → List String
  contentOf : String → String → String

/-- Resolution and reading of the script files for the selected directories
(cli.js lines 163-171): for each directory pick the script of the requested
kind and read its content; any failure aborts the whole read. -/
def resolveScripts (env : Env) (cmd : Cmd) : List String → Option (List String)
  | [] => some []
  | d :: ds =>
    match scriptFor cmd (env.filesOf d), resolveScripts env cmd ds with
    | some f, some rest => some (env.contentOf d f :: rest)
    | _, _ => none

/-- Concatenation of the script texts (cli.js line 175):
sql.reduce((sql, content) => sql.concat(content, "\n"), ""). -/
def concatSql (contents : List String) : String :=
  contents.foldl (fun sql content => sql ++ content ++ "\n") ""

/-- The single SQL text executed in the transaction for the given selected
directories, when all script files resolve and read successfully. -/
def migrationSql (env : Env) (cmd : Cmd) (dirs : List String) : Option String :=
  (resolveScripts env cmd dirs).map concatSql

/-- Outcome of the pure planning part of commitOrRollback, before the
database transaction: early no-op exit, abort while reading scripts, or a
transaction request carrying the SQL text and the new cursor value. -/
inductive Plan where
  | noOp : Plan
  | readFail : Plan
  | run : String → Int → Plan
deriving DecidableEq

/-- The planning part of commitOrRollback (cli.js lines 109-180), from the
directory listing to the transaction request.  choose models the selection
menu (the chosen 0-based offset into the subset); all models the --all
flag, which fast-forwards to subset.length - 1. -/
def commitOrRollbackPlan (env : Env) (cmd : Cmd) (cursor : Int)
    (choose : List String → Nat) (all : Bool) : Plan :=
  let dirNames := dirNamesOf env.listing
  let subset := subsetFor cmd dirNames cursor
  if jsArrayLtOne subset then
    Plan.noOp
  else
    let migrateTo := if all then subset.length - 1 else choose subset
    let newCursor := newCursorFor cmd dirNames subset migrateTo
    let migrationDirs := jsSlice subset 0 ((migrateTo : Int) + 1)
    match migrationSql env cmd migrationDirs with
    | some sql => Plan.run sql newCursor
    | none => Plan.readFail

/-! ## Transaction execution model (cli.js lines 183-199)

The database is modelled by its committed state (the persisted cursor and
the list of executed migration SQL texts); a connection additionally holds
the staged state of an open transaction and the aborted flag Postgres sets
when a statement inside a transaction fails, after which only ROLLBACK (or
COMMIT, which then rolls back) ends the transaction. -/

/-- Committed, durable database state. -/
structure Db where
  cursor : Int
  applied : List String
deriving DecidableEq

/-- A connection: committed state plus the staged state of an open
transaction, if any. -/
structure Conn where
  db : Db
  txn : Option Db
  txnAborted : Bool
deriving DecidableEq

/-- The statements commitOrRollback issues on the transaction client. -/
inductive Stmt where
  | beginTxn : Stmt
  | execMigration : List String → Stmt
  | updateCursor : Int → Stmt
  | commitTxn : Stmt
  | rollbackTxn : Stmt
deriving DecidableEq

/-- Failure injection for the transaction: the migration SQL may fail at a
statement position (with an error message), and the cursor UPDATE may fail. -/
structure FailSpec where
  sqlFailAt : Option (Nat × String)
  updateFail : Option String
deriving DecidableEq

/-- Postgres-style semantics of one statement on a connection: effects of
statements inside a transaction are staged and only published by COMMIT;
a failing statement aborts the transaction; ROLLBACK discards the staged
state.  Returns the new connection state and the error, if any. -/
def execStmt (f : FailSpec) (c : Conn) (s : Stmt) : Conn × Option String :=
  match s with
  | .beginTxn => ({ c with txn := some c.db, txnAborted := false }, none)
  | .execMigration scripts =>
    match c.txn with
    | some staged =>
      if c.txnAborted then (c, some "current transaction is aborted")
      else
        match f.sqlFailAt with
        | some (i, e) =>
          ({ c with txn := some { staged with applied := staged.applied ++ scripts.take i },
                    txnAborted := true }, some e)
        | none =>
          ({ c with txn := some { staged with applied := staged.applied ++ scripts } }, none)
    | none =>
      match f.sqlFailAt with
      | some (_, e) => (c, some e)
      | none => ({ c with db := { c.db with applied := c.db.applied ++ scripts } }, none)
  | .updateCursor n =>
    match c.txn with
    | some staged =>
      if c.txnAborted then (c, some "current transaction is aborted")
      else
        match f.updateFail with
        | some e => ({ c with txnAborted := true }, some e)
        | none => ({ c with txn := some { staged with cursor := n } }, none)
    | none =>
      match f.updateFail with
      | some e => (c, some e)
      | none => ({ c with db := { c.db with cursor := n } }, none)
  | .commitTxn =>
    match c.txn with
    | some staged =>
      if c.txnAborted then ({ c with txn := none, txnAborted := false }, none)
      else ({ db := staged, txn := none, txnAborted := false }, none)
    | none => (c, none)
  | .rollbackTxn => ({ c with txn := none, txnAborted := false }, none)

/-- The transaction part of commitOrRollback (cli.js lines 183-199),
mirroring the try/catch: BEGIN, the concatenated migration SQL, the cursor
UPDATE, COMMIT; the first failure jumps to the catch block, which issues
ROLLBACK and surfaces the error.  Returns the final connection state, the
list of statements issued, and the surfaced error, if any. -/
def commitOrRollbackTxn (f : FailSpec) (c0 : Conn) (scripts : List String)
    (newCursor : Int) : Conn × List Stmt × Option String :=
  let r1 := execStmt f c0 Stmt.beginTxn
  match r1.2 with
  | some err =>
    ((execStmt f r1.1 Stmt.rollbackTxn).1, [Stmt.beginTxn, Stmt.rollbackTxn], some err)
  | none =>
    let r2 := execStmt f r1.1 (Stmt.execMigration scripts)
    match r2.2 with
    | some err =>
      ((execStmt f r2.1 Stmt.rollbackTxn).1,
       [Stmt.beginTxn, Stmt.execMigration scripts, Stmt.rollbackTxn], some err)
    | none =>
      let r3 := execStmt f r2.1 (Stmt.updateCursor newCursor)
      match r3.2 with
      | some err =>
        ((execStmt f r3.1 Stmt.rollbackTxn).1,
         [Stmt.beginTxn, Stmt.execMigration scripts, Stmt.updateCursor newCursor,
          Stmt.rollbackTxn], some err)
      | none =>
        let r4 := execStmt f r3.1 Stmt.commitTxn
        match r4.2 with
        | some err =>
          ((execStmt f r4.1 Stmt.rollbackTxn).1,
           [Stmt.beginTxn, Stmt.execMigration scripts, Stmt.updateCursor newCursor,
            Stmt.commitTxn, Stmt.rollbackTxn], some err)
        | none =>
          (r4.1,
           [Stmt.beginTxn, Stmt.execMigration scripts, Stmt.updateCursor newCursor,
            Stmt.commitTxn], none)

/-! ## Concrete environments used in closed statements -/

/-- Environment with a single migration directory whose two files follow the
naming convention laid down by the create command
(name_commit.sql, name_rollback.sql). -/
def envPair : Env where
  listing := ["m"]
  filesOf := fun d => [d ++ "_commit.sql", d ++ "_rollback.sql"]
  contentOf := fun d f => d ++ ":" ++ f

/-- Environment for the concrete four-unit scenario of the specification:
Catalog = [A, B, C, D], each unit holding a commit and a rollback script
whose contents are the display strings used by the spec. -/
def envABCD : Env where
  listing := ["A", "B", "C", "D"]
  filesOf := fun d => [d ++ "_commit.sql", d ++ "_rollback.sql"]
  contentOf := fun d f =>
    if f = d ++ "_commit.sql" then "<" ++ d ++ " commit>" else "<" ++ d ++ " rollback>"

/-! ## Basic facts about the JavaScript primitives -/

lemma take_min_length (l : List String) (m : Nat) : l.take (min m l.length) = l.take m := by
  rcases Nat.le_total m l.length with h | h
  · rw [Nat.min_eq_left h]
  · rw [Nat.min_eq_right h, List.take_length, List.take_of_length_le h]

lemma drop_min_length (l : List String) (m : Nat) : l.drop (min m l.length) = l.drop m := by
  rcases Nat.le_total m l.length with h | h
  · rw [Nat.min_eq_left h]
  · rw [Nat.min_eq_right h, List.drop_length, List.drop_eq_nil_of_le h]

lemma jsSliceIdx_of_nonneg {len : Nat} {i : Int} (h : 0 ≤ i) :
    jsSliceIdx len i = min i.toNat len := by
  unfold jsSliceIdx
  rw [if_neg (by omega)]
  omega

lemma jsSliceIdx_length (len : Nat) : jsSliceIdx len (len : Int) = len := by
  unfold jsSliceIdx
  rw [if_neg (by omega)]
  omega

lemma jsSlice1_eq_drop (l : List String) (s : Int) (h : 0 ≤ s) :
    jsSlice1 l s = l.drop s.toNat := by
  unfold jsSlice1 jsSlice
  rw [jsSliceIdx_length, List.take_length, jsSliceIdx_of_nonneg h, drop_min_length]

lemma jsSlice1_zero (l : List String) : jsSlice1 l 0 = l := by
  rw [jsSlice1_eq_drop l 0 le_rfl]
  simp

lemma reverse_drop_take (l : List String) (m : Nat) :
    l.reverse.drop (l.length - m) = (l.take m).reverse := by
  calc l.reverse.drop (l.length - m)
      = ((l.take m ++ l.drop m).reverse).drop (l.length - m) := by
        rw [List.take_append_drop]
    _ = (((l.drop m).reverse) ++ ((l.take m).reverse)).drop (l.length - m) := by
        rw [List.reverse_append]
    _ = (l.take m).reverse := List.drop_left' (by simp)

lemma jsSlice_zero_take (l : List String) (s : Nat) :
    jsSlice l 0 ((s : Int) + 1) = l.take (s + 1) := by
  unfold jsSlice
  have h1 : jsSliceIdx l.length ((s : Int) + 1) = min (s + 1) l.length := by
    rw [jsSliceIdx_of_nonneg (by omega)]
    omega
  have h0 : jsSliceIdx l.length 0 = 0 := by
    rw [jsSliceIdx_of_nonneg le_rfl]
    simp
  rw [h1, h0, take_min_length, List.drop_zero]

/-! ## Properties of the pipeline -/

lemma subsetFor_commit_eq (C : List String) (k : Int) (hk : -1 ≤ k) :
    subsetFor Cmd.commit C k = C.drop (k + 1).toNat := by
  simp only [subsetFor]
  exact jsSlice1_eq_drop _ _ (by omega)

lemma subsetFor_rollback_eq (C : List String) (k : Int) (hk : -1 ≤ k)
    (hk2 : k < C.length) :
    subsetFor Cmd.rollback C k = (C.take (k + 1).toNat).reverse := by
  simp only [subsetFor]
  rw [jsSlice1_zero, jsSlice1_eq_drop _ _ (by omega)]
  have h : ((C.length : Int) - (k + 1)).toNat = C.length - (k + 1).toNat := by omega
  rw [h, reverse_drop_take]

lemma subsetFor_commit_getElem (C : List String) (k : Int) (s : Nat) (hk : -1 ≤ k) :
    (subsetFor Cmd.commit C k)[s]? = C[(k + 1).toNat + s]? := by
  rw [subsetFor_commit_eq C k hk, List.getElem?_drop]

lemma subsetFor_rollback_getElem (C : List String) (k : Int) (s : Nat) (hk : -1 ≤ k)
    (hk2 : k < C.length) (hs : (s : Int) ≤ k) :
    (subsetFor Cmd.rollback C k)[s]? = C[(k - s).toNat]? := by
  rw [subsetFor_rollback_eq C k hk hk2]
  have hlen : (C.take (k + 1).toNat).length = (k + 1).toNat := by
    rw [List.length_take]
    omega
  have hslt : s < (C.take (k + 1).toNat).length := by omega
  rw [List.getElem?_reverse hslt, hlen]
  have hlt : (k + 1).toNat - 1 - s < (k + 1).toNat := by omega
  rw [List.getElem?_take_of_lt hlt]
  congr 1
  omega

lemma firstIdxOf_nodup {C : List String} {i : Nat} {a : String}
    (hnd : C.Nodup) (hget : C[i]? = some a) : firstIdxOf a C = some i := by
  induction C generalizing i with
  | nil => simp at hget
  | cons x xs ih =>
    rcases i with _ | j
    · simp only [List.getElem?_cons_zero, Option.some.injEq] at hget
      subst hget
      unfold firstIdxOf
      rw [if_pos rfl]
    · have hget2 : xs[j]? = some a := by simpa using hget
      have hmem : a ∈ xs := by
        have hx2 := List.getElem?_eq_some.mp hget2
        rcases hx2 with ⟨hj, he⟩
        exact he ▸ List.getElem_mem hj
      have hx : x ≠ a := by
        intro h
        subst h
        exact (List.nodup_cons.mp hnd).1 hmem
      unfold firstIdxOf
      rw [if_neg hx, ih (List.nodup_cons.mp hnd).2 hget2]
      rfl

lemma jsFindIndexEq_nodup {C : List String} {i : Nat} (hnd : C.Nodup)
    (hi : i < C.length) : jsFindIndexEq C C[i]? = (i : Int) := by
  have hf : firstIdxOf C[i] C = some i :=
    firstIdxOf_nodup hnd (List.getElem?_eq_getElem hi)
  rw [List.getElem?_eq_getElem hi]
  simp [jsFindIndexEq, hf]

lemma newCursorFor_commit_eq (C : List String) (k : Int) (s : Nat) (hnd : C.Nodup)
    (hk : -1 ≤ k) (hs : k + 1 + (s : Int) < C.length) :
    newCursorFor Cmd.commit C (subsetFor Cmd.commit C k) s = k + 1 + s := by
  simp only [newCursorFor]
  have hidx : (k + 1).toNat + s < C.length := by omega
  rw [subsetFor_commit_getElem C k s hk, jsFindIndexEq_nodup hnd hidx]
  omega

lemma newCursorFor_rollback_eq (C : List String) (k : Int) (s : Nat) (hnd : C.Nodup)
    (hk : -1 ≤ k) (hk2 : k < C.length) (hs : (s : Int) ≤ k) :
    newCursorFor Cmd.rollback C (subsetFor Cmd.rollback C k) s = k - s - 1 := by
  simp only [newCursorFor]
  have hidx : (k - s).toNat < C.length := by omega
  rw [subsetFor_rollback_getElem C k s hk hk2 hs, jsFindIndexEq_nodup hnd hidx]
  omega

lemma jsJoin_singleton (s : String) : jsJoin [s] = s := rfl

lemma concatSql_foldl (l : List String) (acc : String) :
    l.foldl (fun sql content => sql ++ content ++ "\n") acc =
      acc ++ (l.map (fun c => c ++ "\n")).foldr (fun a b => a ++ b) "" := by
  induction l generalizing acc with
  | nil => simp
  | cons x xs ih =>
    rw [List.foldl_cons, ih, List.map_cons, List.foldr_cons]
    simp [String.append_assoc]

lemma concatSql_eq_join (l : List String) :
    concatSql l = (l.map (fun c => c ++ "\n")).foldr (fun a b => a ++ b) "" := by
  unfold concatSql
  rw [concatSql_foldl]
  exact String.empty_append _

lemma resolveScripts_of_files (env : Env) (cmd : Cmd) (dirs : List String)
    (pick : String → String)
    (h : ∀ d ∈ dirs, scriptFor cmd (env.filesOf d) = some (pick d)) :
    resolveScripts env cmd dirs = some (dirs.map (fun d => env.contentOf d (pick d))) := by
  induction dirs with
  | nil => rfl
  | cons d ds ih =>
    have hd := h d (List.mem_cons_self d ds)
    have hds := ih (fun x hx => h x (List.mem_cons_of_mem d hx))
    unfold resolveScripts
    rw [hd, hds]
    rfl

/-! ## Claims -/

/-- C1: for every catalog C and cursor k with -1 ≤ k < len C, the subset
resolved for a forward (commit) operation equals C[k+1:] in ascending
order, and the subset resolved for a backward (rollback) operation equals
reverse(C[0:k+1]), most-recently-applied first. -/
theorem C1_subset_resolution (C : List String) (k : Int)
    (hk : -1 ≤ k) (hk2 : k < C.length) :
    subsetFor Cmd.commit C k = C.drop (k + 1).toNat ∧
    subsetFor Cmd.rollback C k = (C.take (k + 1).toNat).reverse :=
  ⟨subsetFor_commit_eq C k hk, subsetFor_rollback_eq C k hk hk2⟩

/-- Witness for C1 at catalog [a, b, c] and cursor 0. -/
theorem C1_subset_resolution_witness :
    ((-1 : Int) ≤ 0 ∧ (0 : Int) < (["a", "b", "c"] : List String).length) ∧
    (subsetFor Cmd.commit ["a", "b", "c"] 0 =
      (["a", "b", "c"] : List String).drop ((0 : Int) + 1).toNat ∧
     subsetFor Cmd.rollback ["a", "b", "c"] 0 =
      ((["a", "b", "c"] : List String).take ((0 : Int) + 1).toNat).reverse) :=
  ⟨⟨by decide, by decide⟩, C1_subset_resolution ["a", "b", "c"] 0 (by decide) (by decide)⟩

/-- C2: if the migration SQL or the cursor UPDATE fails inside the
transaction, the operation issues ROLLBACK (the statement trace ends with
it), the committed database state - cursor and applied migrations - is
unchanged (so no partial application), the underlying database error is the
one surfaced, and exactly one attempt is made (a single BEGIN, no retry). -/
theorem C2_transaction_atomicity (f : FailSpec) (c0 : Conn) (scripts : List String)
    (newCursor : Int) (hfail : f.sqlFailAt ≠ none ∨ f.updateFail ≠ none) :
    (commitOrRollbackTxn f c0 scripts newCursor).1.db = c0.db ∧
    (commitOrRollbackTxn f c0 scripts newCursor).2.2 =
      (match f.sqlFailAt with
       | some (_, e) => some e
       | none => f.updateFail) ∧
    (commitOrRollbackTxn f c0 scripts newCursor).2.1.getLast? = some Stmt.rollbackTxn ∧
    (commitOrRollbackTxn f c0 scripts newCursor).2.1.count Stmt.beginTxn = 1 := by
  rcases hf1 : f.sqlFailAt with _ | ⟨i, e⟩
  · rcases hf2 : f.updateFail with _ | e
    · rcases hfail with h | h
      · exact absurd hf1 h
      · exact absurd hf2 h
    · simp [commitOrRollbackTxn, execStmt, hf1, hf2, List.count_cons, List.count_nil]
  · simp [commitOrRollbackTxn, execStmt, hf1, List.count_cons, List.count_nil]

/-- Witness for C2: the first statement of a two-script range fails. -/
theorem C2_transaction_atomicity_witness :
    ((⟨some (0, "boom"), none⟩ : FailSpec).sqlFailAt ≠ none ∨
     (⟨some (0, "boom"), none⟩ : FailSpec).updateFail ≠ none) ∧
    ((commitOrRollbackTxn ⟨some (0, "boom"), none⟩ ⟨⟨-1, []⟩, none, false⟩
        ["s1", "s2"] 1).1.db = (⟨⟨-1, []⟩, none, false⟩ : Conn).db ∧
     (commitOrRollbackTxn ⟨some (0, "boom"), none⟩ ⟨⟨-1, []⟩, none, false⟩
        ["s1", "s2"] 1).2.2 =
      (match (⟨some (0, "boom"), none⟩ : FailSpec).sqlFailAt with
       | some (_, e) => some e
       | none => (⟨some (0, "boom"), none⟩ : FailSpec).updateFail) ∧
     (commitOrRollbackTxn ⟨some (0, "boom"), none⟩ ⟨⟨-1, []⟩, none, false⟩
        ["s1", "s2"] 1).2.1.getLast? = some Stmt.rollbackTxn ∧
     (commitOrRollbackTxn ⟨some (0, "boom"), none⟩ ⟨⟨-1, []⟩, none, false⟩
        ["s1", "s2"] 1).2.1.count Stmt.beginTxn = 1) :=
  ⟨Or.inl (by decide),
   C2_transaction_atomicity ⟨some (0, "boom"), none⟩ ⟨⟨-1, []⟩, none, false⟩
     ["s1", "s2"] 1 (Or.inl (by decide))⟩

/-- C3: for a stopping offset s into the resolved subset, the directories
handed to the SQL reader are exactly Subset[0..s] in subset order
(subset.slice(0, s+1) = take (s+1)), the absolute catalog index of
Subset[s] is k+1+s forward and k-s backward, and the new cursor written is
that index forward, and that index minus 1 backward. -/
theorem C3_stopping_offset :
    (∀ (C : List String) (k : Int) (s : Nat), C.Nodup → -1 ≤ k →
      k + 1 + (s : Int) < C.length →
      jsSlice (subsetFor Cmd.commit C k) 0 ((s : Int) + 1) =
        (subsetFor Cmd.commit C k).take (s + 1) ∧
      (subsetFor Cmd.commit C k)[s]? = C[(k + 1 + (s : Int)).toNat]? ∧
      newCursorFor Cmd.commit C (subsetFor Cmd.commit C k) s = k + 1 + s) ∧
    (∀ (C : List String) (k : Int) (s : Nat), C.Nodup → -1 ≤ k → k < C.length →
      (s : Int) ≤ k →
      jsSlice (subsetFor Cmd.rollback C k) 0 ((s : Int) + 1) =
        (subsetFor Cmd.rollback C k).take (s + 1) ∧
      (subsetFor Cmd.rollback C k)[s]? = C[(k - (s : Int)).toNat]? ∧
      newCursorFor Cmd.rollback C (subsetFor Cmd.rollback C k) s = k - s - 1) := by
  constructor
  · intro C k s hnd hk hs
    refine ⟨jsSlice_zero_take _ s, ?_, newCursorFor_commit_eq C k s hnd hk hs⟩
    rw [subsetFor_commit_getElem C k s hk]
    congr 1
    omega
  · intro C k s hnd hk hk2 hs
    exact ⟨jsSlice_zero_take _ s, subsetFor_rollback_getElem C k s hk hk2 hs,
           newCursorFor_rollback_eq C k s hnd hk hk2 hs⟩

/-- Witness for C3 at catalog [a, b, c], cursor -1, forward offset 1. -/
theorem C3_stopping_offset_witness :
    ((["a", "b", "c"] : List String).Nodup ∧ (-1 : Int) ≤ -1 ∧
      -1 + 1 + ((1 : Nat) : Int) < (["a", "b", "c"] : List String).length) ∧
    (jsSlice (subsetFor Cmd.commit ["a", "b", "c"] (-1)) 0 (((1 : Nat) : Int) + 1) =
        (subsetFor Cmd.commit ["a", "b", "c"] (-1)).take (1 + 1) ∧
      (subsetFor Cmd.commit ["a", "b", "c"] (-1))[(1 : Nat)]? =
        (["a", "b", "c"] : List String)[(-1 + 1 + ((1 : Nat) : Int)).toNat]? ∧
      newCursorFor Cmd.commit ["a", "b", "c"]
        (subsetFor Cmd.commit ["a", "b", "c"] (-1)) 1 = -1 + 1 + 1) :=
  ⟨⟨by decide, by decide, by decide⟩,
   C3_stopping_offset.1 ["a", "b", "c"] (-1) 1 (by decide) (by decide) (by decide)⟩

/-- C4: when the filesystem listing is supplied in sorted order, as Node's
readdir does via alphasort, the catalog used by the pipeline is exactly the
non-hidden directory names sorted ascending by identifier string: it equals
the mergeSort of the filtered set and is itself sorted. -/
theorem C4_catalog_sorted (listing : List String) (hs : listing.Sorted (· ≤ ·)) :
    dirNamesOf listing =
      (listing.filter (fun subDir => !startsWithDot subDir)).mergeSort ∧
    (dirNamesOf listing).Sorted (· ≤ ·) := by
  have hsorted : (dirNamesOf listing).Sorted (· ≤ ·) :=
    List.Pairwise.sublist (List.filter_sublist listing) hs
  exact ⟨(List.mergeSort_eq_self hsorted).symm, hsorted⟩

/-- Witness for C4 at the listing [.git, a, b], whose hidden entry is
filtered away. -/
theorem C4_catalog_sorted_witness :
    ([".git", "a", "b"] : List String).Sorted (· ≤ ·) ∧
    (dirNamesOf [".git", "a", "b"] =
      (([".git", "a", "b"] : List String).filter
        (fun subDir => !startsWithDot subDir)).mergeSort ∧
     (dirNamesOf [".git", "a", "b"]).Sorted (· ≤ ·)) := by
  have hs : ([".git", "a", "b"] : List String).Sorted (· ≤ ·) := by
    rw [List.sorted_cons, List.sorted_cons]
    refine ⟨fun b hb => ?_, fun b hb => ?_, List.sorted_singleton _⟩
    · rcases List.mem_cons.mp hb with h | h
      · subst h
        rw [String.le_iff_toList_le]
        decide
      · rw [List.mem_singleton.mp h, String.le_iff_toList_le]
        decide
    · rw [List.mem_singleton.mp hb, String.le_iff_toList_le]
      decide
  exact ⟨hs, C4_catalog_sorted [".git", "a", "b"] hs⟩

/-- C5: the claim states that the no-op exit happens exactly when the
resolved subset is empty and that a non-empty subset is never reported as a
no-op; the code instead tests the coercing comparison subset < 1, so the
non-empty subset [0] (cursor -1, forward) is reported as a no-op.  This
theorem evaluates the code at that failing input. -/
theorem C5_noop_on_nonempty_subset :
    subsetFor Cmd.commit ["0"] (-1) = ["0"] ∧
    (["0"] : List String) ≠ [] ∧
    commitOrRollbackPlan ⟨["0"], fun _ => ["c.sql", "r.sql"], fun _ _ => "sql"⟩
      Cmd.commit (-1) (fun _ => 0) true = Plan.noOp := by
  decide

/-- C6: the SQL text executed is the concatenation of the selected script
texts in subset order, a newline appended after each including the last;
and the concrete scenario Catalog = [A, B, C, D], cursor -1, commit with
offset 1 produces the SQL of A and B with new cursor 1. -/
theorem C6_sql_concatenation :
    (∀ contents : List String,
      concatSql contents =
        (contents.map (fun c => c ++ "\n")).foldr (fun a b => a ++ b) "") ∧
    commitOrRollbackPlan envABCD Cmd.commit (-1) (fun _ => 1) false =
      Plan.run "<A commit>\n<B commit>\n" 1 :=
  ⟨concatSql_eq_join, by decide⟩

/-- C7: round-trip; committing from cursor k to offset s yields cursor
k+1+s, and rolling back with the offset that selects the unit at catalog
index k+1 (which is offset s of the backward subset) restores cursor k. -/
theorem C7_round_trip (C : List String) (k : Int) (s : Nat) (hnd : C.Nodup)
    (hk : -1 ≤ k) (hs : k + 1 + (s : Int) < C.length) :
    newCursorFor Cmd.commit C (subsetFor Cmd.commit C k) s = k + 1 + s ∧
    (subsetFor Cmd.rollback C (k + 1 + s))[s]? = C[(k + 1).toNat]? ∧
    newCursorFor Cmd.rollback C (subsetFor Cmd.rollback C (k + 1 + s)) s = k := by
  refine ⟨newCursorFor_commit_eq C k s hnd hk hs, ?_, ?_⟩
  · rw [subsetFor_rollback_getElem C (k + 1 + s) s (by omega) hs (by omega)]
    congr 1
    omega
  · rw [newCursorFor_rollback_eq C (k + 1 + s) s hnd (by omega) hs (by omega)]
    omega

/-- Witness for C7 at catalog [a, b, c], cursor 0, offset 1. -/
theorem C7_round_trip_witness :
    ((["a", "b", "c"] : List String).Nodup ∧ (-1 : Int) ≤ 0 ∧
      0 + 1 + ((1 : Nat) : Int) < (["a", "b", "c"] : List String).length) ∧
    (newCursorFor Cmd.commit ["a", "b", "c"]
        (subsetFor Cmd.commit ["a", "b", "c"] 0) 1 = 0 + 1 + 1 ∧
     (subsetFor Cmd.rollback ["a", "b", "c"] (0 + 1 + 1))[(1 : Nat)]? =
        (["a", "b", "c"] : List String)[((0 : Int) + 1).toNat]? ∧
     newCursorFor Cmd.rollback ["a", "b", "c"]
        (subsetFor Cmd.rollback ["a", "b", "c"] (0 + 1 + 1)) 1 = 0) :=
  ⟨⟨by decide, by decide, by decide⟩,
   C7_round_trip ["a", "b", "c"] 0 1 (by decide) (by decide) (by decide)⟩

/-- C8: for every unit in the selected range, a forward operation reads the
content of the first of the unit's two filenames in ascending order and a
backward operation reads the second, concatenating them in list order. -/
theorem C8_script_resolution (env : Env) (dirs : List String) (fa fb : String → String)
    (h : ∀ d ∈ dirs, env.filesOf d = [fa d, fb d] ∧ fa d ≤ fb d) :
    migrationSql env Cmd.commit dirs =
      some (concatSql (dirs.map (fun d => env.contentOf d (fa d)))) ∧
    migrationSql env Cmd.rollback dirs =
      some (concatSql (dirs.map (fun d => env.contentOf d (fb d)))) := by
  have hc : ∀ d ∈ dirs, scriptFor Cmd.commit (env.filesOf d) = some (fa d) := by
    intro d hd
    rw [(h d hd).1]
    rfl
  have hr : ∀ d ∈ dirs, scriptFor Cmd.rollback (env.filesOf d) = some (fb d) := by
    intro d hd
    rw [(h d hd).1]
    rfl
  unfold migrationSql
  rw [resolveScripts_of_files env Cmd.commit dirs fa hc,
      resolveScripts_of_files env Cmd.rollback dirs fb hr]
  exact ⟨rfl, rfl⟩

/-- Witness for C8 at a single unit following the create command's naming
convention, where name_commit.sql sorts before name_rollback.sql. -/
theorem C8_script_resolution_witness :
    (∀ d ∈ (["m"] : List String),
      envPair.filesOf d = [d ++ "_commit.sql", d ++ "_rollback.sql"] ∧
      d ++ "_commit.sql" ≤ d ++ "_rollback.sql") ∧
    (migrationSql envPair Cmd.commit ["m"] =
      some (concatSql ((["m"] : List String).map
        (fun d => envPair.contentOf d (d ++ "_commit.sql")))) ∧
     migrationSql envPair Cmd.rollback ["m"] =
      some (concatSql ((["m"] : List String).map
        (fun d => envPair.contentOf d (d ++ "_rollback.sql"))))) := by
  have h : ∀ d ∈ (["m"] : List String),
      envPair.filesOf d = [d ++ "_commit.sql", d ++ "_rollback.sql"] ∧
      d ++ "_commit.sql" ≤ d ++ "_rollback.sql" := by
    intro d hd
    rw [List.mem_singleton.mp hd]
    refine ⟨rfl, ?_⟩
    rw [String.le_iff_toList_le]
    decide
  exact ⟨h, C8_script_resolution envPair ["m"]
    (fun d => d ++ "_commit.sql") (fun d => d ++ "_rollback.sql") h⟩

/-- C9: the emptiness test on the resolved subset is the coercing
comparison subset < 1 on the array; a one-element subset whose sole name
converts to a number below 1 makes the operation exit as a no-op even
though the subset is non-empty. -/
theorem C9_coercive_emptiness (env : Env) (cmd : Cmd) (cursor : Int)
    (choose : List String → Nat) (all : Bool) (s : String) (v : Int)
    (hsub : subsetFor cmd (dirNamesOf env.listing) cursor = [s])
    (hnum : jsStringToNumber s = some v) (hv : v < 1) :
    commitOrRollbackPlan env cmd cursor choose all = Plan.noOp ∧
    subsetFor cmd (dirNamesOf env.listing) cursor ≠ [] := by
  have hlt : jsArrayLtOne (subsetFor cmd (dirNamesOf env.listing) cursor) = true := by
    rw [hsub]
    unfold jsArrayLtOne
    rw [jsJoin_singleton, hnum]
    simp [hv]
  constructor
  · simp only [commitOrRollbackPlan]
    rw [hlt]
    simp
  · rw [hsub]
    simp

/-- Witness for C9 at a directory named 0, cursor -1, forward. -/
theorem C9_coercive_emptiness_witness :
    (subsetFor Cmd.commit
        (dirNamesOf (⟨["0"], fun _ => ["c.sql", "r.sql"], fun _ _ => "sql"⟩ : Env).listing)
        (-1) = ["0"] ∧
      jsStringToNumber "0" = some 0 ∧ (0 : Int) < 1) ∧
    (commitOrRollbackPlan ⟨["0"], fun _ => ["c.sql", "r.sql"], fun _ _ => "sql"⟩
        Cmd.commit (-1) (fun _ => 0) true = Plan.noOp ∧
      subsetFor Cmd.commit
        (dirNamesOf (⟨["0"], fun _ => ["c.sql", "r.sql"], fun _ _ => "sql"⟩ : Env).listing)
        (-1) ≠ []) :=
  ⟨⟨by decide, by decide, by decide⟩,
   C9_coercive_emptiness _ Cmd.commit (-1) (fun _ => 0) true "0" 0
     (by decide) (by decide) (by decide)⟩

/-- C10: the new cursor comes from a findIndex scan of the whole catalog
for the selected name: with pairwise-distinct names it is cursor+1+s
forward and cursor-s-1 backward; with a duplicated name it is the index of
the first duplicate, which can differ from the selected unit's position, as
catalog [a, b, a] with forward offset 2 shows (new cursor 0, position 2). -/
theorem C10_findIndex_cursor :
    (∀ (C : List String) (k : Int) (s : Nat), C.Nodup → -1 ≤ k →
      k + 1 + (s : Int) < C.length →
      newCursorFor Cmd.commit C (subsetFor Cmd.commit C k) s = k + 1 + s) ∧
    (∀ (C : List String) (k : Int) (s : Nat), C.Nodup → -1 ≤ k → k < C.length →
      (s : Int) ≤ k →
      newCursorFor Cmd.rollback C (subsetFor Cmd.rollback C k) s = k - s - 1) ∧
    (newCursorFor Cmd.commit ["a", "b", "a"]
        (subsetFor Cmd.commit ["a", "b", "a"] (-1)) 2 = 0 ∧
     (subsetFor Cmd.commit ["a", "b", "a"] (-1))[2]? = some "a" ∧
     (["a", "b", "a"] : List String)[0]? = some "a" ∧ (0 : Int) ≠ 2) := by
  refine ⟨fun C k s hnd hk hs => newCursorFor_commit_eq C k s hnd hk hs,
          fun C k s hnd hk hk2 hs => newCursorFor_rollback_eq C k s hnd hk hk2 hs,
          by decide⟩

/-- Witness for C10 at the distinct catalog [a, b, c], cursor -1, offset 0. -/
theorem C10_findIndex_cursor_witness :
    ((["a", "b", "c"] : List String).Nodup ∧ (-1 : Int) ≤ -1 ∧
      -1 + 1 + ((0 : Nat) : Int) < (["a", "b", "c"] : List String).length) ∧
    newCursorFor Cmd.commit ["a", "b", "c"]
      (subsetFor Cmd.commit ["a", "b", "c"] (-1)) 0 = -1 + 1 + 0 :=
  ⟨⟨by decide, by decide, by decide⟩,
   C10_findIndex_cursor.1 ["a", "b", "c"] (-1) 0 (by decide) (by decide) (by decide)⟩

end Migres
